import Mathlib

/-!
# Verification of the CarbonTrack emission-calculation and aggregation engine

Shallow embedding of the two backend variants of the CO2 emissions calculator:
the SQL-ORM-backed service (`backend/api/main.py`) and the raw-SQL service
(`backend/simple_api.py`).  Python floats are modelled as rationals (`ℚ`),
Python `round` as decimal round-half-to-even, datetimes as seconds since the
epoch (`ℕ`), and the SQL `ORDER BY timestamp DESC` as a sort by the
most-recent-first relation on timestamps.  Fallible endpoints return an
explicit outcome type in which Python's `HTTPException` and
`ZeroDivisionError` are visible constructors.
-/

namespace CarbonTrack

/-! ## Python `round`: decimal rounding, half to even -/

/-- `10 ^ n`, by structural recursion so that it computes by kernel reduction. -/
def tenPow : ℕ → ℕ
  | 0 => 1
  | n + 1 => 10 * tenPow n

/-- Round the rational `num / den` (with `den > 0`) to the nearest integer,
ties going to the even integer, as Python's builtin `round` does. -/
def roundHalfEvenScaled (num : ℤ) (den : ℕ) : ℤ :=
  let f := Int.fdiv num den
  let r := num - f * den
  if 2 * r < (den : ℤ) then f
  else if (den : ℤ) < 2 * r then f + 1
  else if f % 2 = 0 then f else f + 1

/-- Model of Python `round(q, n)`: round to `n` decimal places, half to even.
(The binary-floating-point artifacts of CPython's `round` are out of scope;
the decimal semantics is used, per the spec's floating-point tolerance.) -/
def pyRound (q : ℚ) (n : ℕ) : ℚ :=
  (roundHalfEvenScaled (q.num * tenPow n) q.den : ℚ) / (tenPow n : ℚ)

/-- Model of Python `str.lower()` (ASCII lowering, which is all the
factor-table keys need). -/
def lowerString (s : String) : String :=
  ⟨s.data.map Char.toLower⟩

/-! ## Factor tables

`CARBON_FACTORS` from `backend/api/main.py` and `backend/simple_api.py`,
as association lists in the source's insertion order. -/

/-- A category's activity → factor table. -/
abbrev ActivityFactors := List (String × ℚ)

/-- A full category → activity → factor table. -/
abbrev FactorTable := List (String × ActivityFactors)

/-- `CARBON_FACTORS` of `backend/api/main.py` (lines 60–93). -/
def CARBON_FACTORS : FactorTable :=
  [ ("transport",
      [ ("car_petrol", 0.192), ("car_diesel", 0.171), ("bus", 0.105),
        ("train", 0.041), ("plane_short", 0.15), ("plane_long", 0.09),
        ("motorcycle", 0.103), ("electric_car", 0.05) ]),
    ("electricity",
      [ ("grid", 0.5), ("solar", 0.05), ("wind", 0.011), ("coal", 0.82) ]),
    ("food",
      [ ("beef", 27.0), ("chicken", 6.9), ("pork", 12.1), ("fish", 6.1),
        ("rice", 4.0), ("vegetables", 2.0), ("milk", 1.9), ("cheese", 13.5) ]),
    ("waste",
      [ ("landfill", 0.5), ("recycled", 0.1), ("composted", 0.3),
        ("plastic", 2.5) ]) ]

/-- `CARBON_FACTORS` of `backend/simple_api.py` (lines 39–64). -/
def SIMPLE_CARBON_FACTORS : FactorTable :=
  [ ("transport",
      [ ("car_petrol", 0.192), ("car_diesel", 0.171), ("bus", 0.105),
        ("train", 0.041), ("plane", 0.15), ("electric_car", 0.05) ]),
    ("electricity",
      [ ("grid", 0.5), ("solar", 0.05), ("wind", 0.011) ]),
    ("food",
      [ ("beef", 6.0), ("chicken", 6.9), ("rice", 4.0), ("vegetables", 2.0) ]),
    ("waste",
      [ ("landfill", 0.5), ("recycled", 0.1), ("composted", 0.3) ]) ]

/-- Python `category in CARBON_FACTORS` / `CARBON_FACTORS[category]`. -/
def lookupCategory (table : FactorTable) (category : String) : Option ActivityFactors :=
  (table.find? (fun e => e.1 == category)).map Prod.snd

/-- Python `activity in CARBON_FACTORS[category]` / `CARBON_FACTORS[category][activity]`. -/
def lookupActivity (activities : ActivityFactors) (activity : String) : Option ℚ :=
  (activities.find? (fun e => e.1 == activity)).map Prod.snd

/-- The factor registered in `table` for the (already lower-cased) pair
`(category, activity)`, when both lookups succeed. -/
def tableFactor (table : FactorTable) (category activity : String) : Option ℚ :=
  match lookupCategory table category with
  | none => none
  | some activities => lookupActivity activities activity

/-- `get_default_unit` of `backend/api/main.py` (lines 159–166); identical to
`get_unit` of `backend/simple_api.py` (lines 97–104). -/
def get_default_unit (category : String) : String :=
  if category == "transport" then "km"
  else if category == "electricity" then "kWh"
  else if category == "food" then "kg"
  else if category == "waste" then "kg"
  else "unit"

/-! ## Calculator -/

/-- The two client errors of the `/calculate` endpoints (HTTP 400s). -/
inductive CalcError where
  | unknownCategory : CalcError
  | unknownActivity : CalcError
deriving DecidableEq

/-- The calculation outcome of `calculate_emission` (`main.py` lines 169–213):
`co2_kg` is the raw product that is persisted, `displayed_co2_kg` the
2-decimal rounding that only appears in the response body. -/
structure CalcResult where
  category : String
  activity : String
  amount : ℚ
  co2_kg : ℚ
  displayed_co2_kg : ℚ
  factor_used : ℚ
deriving DecidableEq

/-- Core of `calculate_emission` (`backend/api/main.py` lines 169–213) and of
`calculate` (`backend/simple_api.py` lines 118–146), parameterised by the
factor table: lower-case the category and activity, look both up (category
first), and multiply the amount by the registered factor.  There is no
positivity check on `amount`. -/
def calculate_emission (table : FactorTable) (category activity : String) (amount : ℚ) :
    Except CalcError CalcResult :=
  let cat := lowerString category
  match lookupCategory table cat with
  | none => Except.error CalcError.unknownCategory
  | some activities =>
    let act := lowerString activity
    match lookupActivity activities act with
    | none => Except.error CalcError.unknownActivity
    | some factor =>
      let co2 := amount * factor
      Except.ok
        { category := cat, activity := act, amount := amount,
          co2_kg := co2, displayed_co2_kg := pyRound co2 2, factor_used := factor }

instance exceptDecEq {ε α : Type} [DecidableEq ε] [DecidableEq α] :
    DecidableEq (Except ε α) := fun x y =>
  match x, y with
  | .error a, .error b =>
    if h : a = b then isTrue (by rw [h]) else isFalse (fun hc => h (by cases hc; rfl))
  | .ok a, .ok b =>
    if h : a = b then isTrue (by rw [h]) else isFalse (fun hc => h (by cases hc; rfl))
  | .error _, .ok _ => isFalse (fun hc => Except.noConfusion hc)
  | .ok _, .error _ => isFalse (fun hc => Except.noConfusion hc)

/-! ## Equivalents generator -/

/-- The response of `get_equivalents`. -/
structure Equivalents where
  trees_needed : ℚ
  km_by_car : ℚ
  smartphones_charged : ℚ
  hours_of_tv : ℚ
deriving DecidableEq

/-- `get_equivalents` of `backend/api/main.py` (lines 106–113). -/
def get_equivalents (co2_kg : ℚ) : Equivalents :=
  { trees_needed := pyRound (co2_kg / 21.77) 1
    km_by_car := pyRound (co2_kg / 0.192) 1
    smartphones_charged := pyRound (co2_kg / 0.008) 0
    hours_of_tv := pyRound (co2_kg / 0.088) 1 }

/-! ## Record store -/

/-- A persisted row of the `emissions` table (`main.py` lines 19–29):
`timestamp` is seconds since the epoch. -/
structure EmissionRecord where
  id : ℕ
  category : String
  activity : String
  amount : ℚ
  unit : String
  co2_kg : ℚ
  timestamp : ℕ
deriving DecidableEq

/-- The row the `/calculate` pipeline persists from a successful calculation
(`main.py` lines 186–196): the stored `co2_kg` is the calculation's raw
`co2_kg`, with the store assigning `id` and `timestamp`. -/
def persistRecord (res : CalcResult) (unit : String) (id : ℕ) (timestamp : ℕ) :
    EmissionRecord :=
  { id := id, category := res.category, activity := res.activity,
    amount := res.amount, unit := unit, co2_kg := res.co2_kg,
    timestamp := timestamp }

/-- `ORDER BY timestamp DESC`: most recent first. -/
def orderByTimestampDesc (records : List EmissionRecord) : List EmissionRecord :=
  List.insertionSort (fun a b => b.timestamp ≤ a.timestamp) records

/-- `get_all_records` of `backend/simple_api.py` (lines 88–94):
`SELECT * FROM emissions ORDER BY timestamp DESC LIMIT 20`. -/
def simple_get_all_records (records : List EmissionRecord) : List EmissionRecord :=
  (orderByTimestampDesc records).take 20

/-! ## History -/

/-- One displayed history row (`main.py` lines 227–235): the ORM variant shows
`co2_kg` rounded to 2 decimals. -/
structure HistoryRow where
  id : ℕ
  category : String
  activity : String
  amount : ℚ
  unit : String
  co2_kg : ℚ
  timestamp : ℕ
deriving DecidableEq

/-- The `/history` response body. -/
structure HistoryResponse where
  total_records : ℕ
  total_co2_kg : ℚ
  records : List HistoryRow
deriving DecidableEq

/-- The FastAPI default for `get_history`'s `limit` query parameter. -/
def DEFAULT_HISTORY_LIMIT : ℕ := 20

/-- `get_history` of `backend/api/main.py` (lines 216–238): the `limit` most
recent records, their co2 sum (rounded to 2 decimals for display), and the
rows themselves with display-rounded `co2_kg`. -/
def get_history (limit : ℕ) (db : List EmissionRecord) : HistoryResponse :=
  let records := (orderByTimestampDesc db).take limit
  let total_co2 : ℚ := (records.map EmissionRecord.co2_kg).sum
  { total_records := records.length
    total_co2_kg := pyRound total_co2 2
    records := records.map fun r =>
      { id := r.id, category := r.category, activity := r.activity,
        amount := r.amount, unit := r.unit, co2_kg := pyRound r.co2_kg 2,
        timestamp := r.timestamp } }

/-- `history` of `backend/simple_api.py` (lines 149–172): no limit parameter
(the underlying query is fixed at the 20 most recent), and the rows show the
stored `co2_kg` unrounded. -/
def simple_history (db : List EmissionRecord) : HistoryResponse :=
  let records := simple_get_all_records db
  { total_records := records.length
    total_co2_kg := pyRound ((records.map EmissionRecord.co2_kg).sum) 2
    records := records.map fun r =>
      { id := r.id, category := r.category, activity := r.activity,
        amount := r.amount, unit := r.unit, co2_kg := r.co2_kg,
        timestamp := r.timestamp } }

/-! ## Aggregator: breakdown and statistics -/

/-- One entry of the `breakdown` dict built by `get_statistics`
(`main.py` lines 252–261), before percentages are added. -/
structure CategoryEntry where
  category : String
  total : ℚ
  count : ℕ
  activities : List (String × ℚ)
deriving DecidableEq

/-- Add one record's co2 to a category's per-activity sub-totals
(`main.py` lines 259–261). -/
def addActivity (activities : List (String × ℚ)) (activity : String) (co2 : ℚ) :
    List (String × ℚ) :=
  if activities.any (fun e => e.1 == activity) then
    activities.map fun e => if e.1 == activity then (e.1, e.2 + co2) else e
  else activities ++ [(activity, co2)]

/-- One iteration of the breakdown loop of `get_statistics`
(`main.py` lines 253–261), keeping the dict's insertion order. -/
def addToBreakdown (b : List CategoryEntry) (r : EmissionRecord) : List CategoryEntry :=
  if b.any (fun e => e.category == r.category) then
    b.map fun e =>
      if e.category == r.category then
        { e with
          total := e.total + r.co2_kg
          count := e.count + 1
          activities := addActivity e.activities r.activity r.co2_kg }
      else e
  else
    b ++ [{ category := r.category, total := r.co2_kg, count := 1,
            activities := [(r.activity, r.co2_kg)] }]

/-- The full breakdown loop of `get_statistics` (`main.py` lines 252–261). -/
def buildBreakdown (records : List EmissionRecord) : List CategoryEntry :=
  records.foldl addToBreakdown []

/-- One entry of the breakdown as reported (`main.py` lines 264–266):
`percentage` computed from the unrounded category total, then the reported
`total` rounded to 2 decimals. -/
structure CategoryStats where
  category : String
  total : ℚ
  count : ℕ
  activities : List (String × ℚ)
  percentage : ℚ
deriving DecidableEq

/-- Canned recommendation for high transport emissions (`main.py` line 294). -/
def TRANSPORT_MSG : String :=
  "🚗 Your transport emissions are high. Consider carpooling or public transport."

/-- Canned recommendation for high food emissions (`main.py` line 296). -/
def FOOD_MSG : String :=
  "🍖 Consider reducing meat consumption, especially beef."

/-- Canned recommendation for high electricity emissions (`main.py` line 298). -/
def ELECTRICITY_MSG : String :=
  "💡 Switch to energy-efficient appliances and LED bulbs."

/-- The fallback message when no canned recommendation fired (`main.py` line 301). -/
def BALANCED_MSG : String :=
  "✅ Your emissions are well balanced across categories!"

/-- The inner `if category == …` chain of `get_recommendations`
(`main.py` lines 293–298): only `transport`, `food` and `electricity` have a
canned message — `waste` (or anything else) has none. -/
def msgFor (category : String) : Option String :=
  if category == "transport" then some TRANSPORT_MSG
  else if category == "food" then some FOOD_MSG
  else if category == "electricity" then some ELECTRICITY_MSG
  else none

/-- The canned message (if any) for one breakdown entry, mirroring the loop
body of `get_recommendations` (`main.py` lines 291–298): a message exists
only when the percentage exceeds 40 and the category has one. -/
def cannedRec (e : String × ℚ) : Option String :=
  if e.2 > 40 then msgFor e.1 else none

/-- `get_recommendations` of `backend/api/main.py` (lines 287–303), as a
function of the breakdown's (category, percentage) pairs in dict order. -/
def get_recommendations (breakdown : List (String × ℚ)) : List String :=
  let recs := breakdown.filterMap cannedRec
  if recs.isEmpty then [BALANCED_MSG] else recs

/-- `min(r.timestamp for r in records)`, with a default for the empty list
(the callers guard against emptiness as the Python code does). -/
def oldestTimestamp (db : List EmissionRecord) : ℕ :=
  match db with
  | [] => 0
  | r :: rest => rest.foldl (fun m x => min m x.timestamp) r.timestamp

/-- `max(r.timestamp for r in records)`, with a default for the empty list. -/
def newestTimestamp (db : List EmissionRecord) : ℕ :=
  match db with
  | [] => 0
  | r :: rest => rest.foldl (fun m x => max m x.timestamp) r.timestamp

/-- `(newest - oldest).days` (`main.py` line 271): whole days elapsed. -/
def daysBetween (db : List EmissionRecord) : ℕ :=
  (newestTimestamp db - oldestTimestamp db) / 86400

/-- `days_diff = (newest - oldest).days or 1` (`main.py` line 271). -/
def recordingPeriodDays (db : List EmissionRecord) : ℕ :=
  if daysBetween db = 0 then 1 else daysBetween db

/-- The `/stats` response body of the ORM variant (`main.py` lines 274–284).
`total_co2` and `daily_average` are the unrounded internal values; the
`…_kg` fields carry the 2-decimal display rounding of the response. -/
structure Stats where
  total_co2 : ℚ
  total_emissions_kg : ℚ
  total_records : ℕ
  daily_average : ℚ
  daily_average_kg : ℚ
  recording_period_days : ℕ
  breakdown : List CategoryStats
  equivalents : Equivalents
  recommendations : List String
deriving DecidableEq

/-- Outcome of a `/stats` request: the benign empty-store message, a Python
`ZeroDivisionError` escaping the percentage loop, or the statistics body. -/
inductive StatsOutcome (α : Type) where
  | emptyNotice : StatsOutcome α
  | divisionError : StatsOutcome α
  | ok : α → StatsOutcome α
deriving DecidableEq

/-- `true` exactly on a successful statistics body. -/
def StatsOutcome.isOk {α : Type} : StatsOutcome α → Bool
  | .ok _ => true
  | _ => false

/-- The successful statistics body, if any. -/
def StatsOutcome.toOption {α : Type} : StatsOutcome α → Option α
  | .ok s => some s
  | _ => none

/-- `get_statistics` of `backend/api/main.py` (lines 241–284): reads the full
record set; empty set → the "no data yet" message; the percentage loop
divides each category total by `total_co2`, which in Python raises
`ZeroDivisionError` when the sum is exactly zero; otherwise the breakdown,
daily average, equivalents and recommendations are assembled. -/
def get_statistics (db : List EmissionRecord) : StatsOutcome Stats :=
  if db.isEmpty then .emptyNotice
  else
    let total_co2 : ℚ := (db.map EmissionRecord.co2_kg).sum
    let b := buildBreakdown db
    if total_co2 = 0 then .divisionError
    else
      let breakdown : List CategoryStats := b.map fun e =>
        { category := e.category, total := pyRound e.total 2, count := e.count,
          activities := e.activities,
          percentage := pyRound (e.total / total_co2 * 100) 1 }
      let days_diff := recordingPeriodDays db
      let daily_avg := total_co2 / (days_diff : ℚ)
      .ok
        { total_co2 := total_co2
          total_emissions_kg := pyRound total_co2 2
          total_records := db.length
          daily_average := daily_avg
          daily_average_kg := pyRound daily_avg 2
          recording_period_days := days_diff
          breakdown := breakdown
          equivalents := get_equivalents total_co2
          recommendations :=
            get_recommendations (breakdown.map fun e => (e.category, e.percentage)) }

/-- The `/stats` response body of the raw-SQL variant
(`backend/simple_api.py` lines 197–206). -/
structure SimpleStats where
  total_co2 : ℚ
  total_emissions_kg : ℚ
  total_records : ℕ
  breakdown : List (String × ℚ)
  percentages : List (String × ℚ)
deriving DecidableEq

/-- One iteration of the simple breakdown loop (`simple_api.py` lines 186–190). -/
def simpleAddToBreakdown (b : List (String × ℚ)) (r : EmissionRecord) :
    List (String × ℚ) :=
  if b.any (fun e => e.1 == r.category) then
    b.map fun e => if e.1 == r.category then (e.1, e.2 + r.co2_kg) else e
  else b ++ [(r.category, r.co2_kg)]

/-- `stats` of `backend/simple_api.py` (lines 175–206): note it reads
`get_all_records()`, i.e. at most the 20 most recent rows, not the full
store; division by a zero total raises `ZeroDivisionError` as in the ORM
variant. -/
def simple_stats (db : List EmissionRecord) : StatsOutcome SimpleStats :=
  let records := simple_get_all_records db
  if records.isEmpty then .emptyNotice
  else
    let total_co2 : ℚ := (records.map EmissionRecord.co2_kg).sum
    let breakdown := records.foldl simpleAddToBreakdown []
    if total_co2 = 0 then .divisionError
    else
      .ok
        { total_co2 := total_co2
          total_emissions_kg := pyRound total_co2 2
          total_records := records.length
          breakdown := breakdown
          percentages := breakdown.map fun e => (e.1, pyRound (e.2 / total_co2 * 100) 1) }

/-! ## Claim theorems -/

/-- C1: for every (category, activity) pair present in the factor table —
after lower-casing both — and every rational amount (zero and negative
included, there being no positivity check), `calculate_emission` succeeds
with `co2_kg = amount * factor` where `factor` is the table's registered
value for the pair. -/
theorem compute_co2_eq_amount_mul_factor (table : FactorTable)
    (category activity : String) (amount f : ℚ)
    (h : tableFactor table (lowerString category) (lowerString activity) = some f) :
    (calculate_emission table category activity amount).map CalcResult.co2_kg =
      Except.ok (amount * f) := by
  unfold tableFactor at h
  cases hc : lookupCategory table (lowerString category) with
  | none => rw [hc] at h; exact absurd h (by simp)
  | some acts =>
    simp only [hc] at h
    simp [calculate_emission, hc, h, Except.map]

/-- Witness for C1 at a concrete input: `("Transport", "CAR_PETROL")` is in
the ORM table with factor `0.192`, and a negative amount `-5` is accepted,
yielding `co2_kg = -5 * 0.192`. -/
theorem compute_co2_eq_amount_mul_factor_witness :
    tableFactor CARBON_FACTORS (lowerString ("Transport")) (lowerString ("CAR_PETROL")) =
        some 0.192 ∧
    (calculate_emission CARBON_FACTORS ("Transport") ("CAR_PETROL") (-5)).map
        CalcResult.co2_kg = Except.ok ((-5) * 0.192) :=
  ⟨by with_unfolding_all decide,
   compute_co2_eq_amount_mul_factor CARBON_FACTORS ("Transport") ("CAR_PETROL") (-5) 0.192
     (by with_unfolding_all decide)⟩

/-- C2: `calculate_emission` fails with `unknownCategory` exactly when the
lower-cased category is not in the table; with `unknownActivity` exactly when
the category is present but the lower-cased activity is not in its entry; and
succeeds in every other case (i.e. exactly when the pair has a registered
factor). -/
theorem compute_error_classification (table : FactorTable)
    (category activity : String) (amount : ℚ) :
    (calculate_emission table category activity amount =
        Except.error CalcError.unknownCategory ↔
      lookupCategory table (lowerString category) = none) ∧
    (calculate_emission table category activity amount =
        Except.error CalcError.unknownActivity ↔
      ∃ acts, lookupCategory table (lowerString category) = some acts ∧
        lookupActivity acts (lowerString activity) = none) ∧
    ((∃ res, calculate_emission table category activity amount = Except.ok res) ↔
      ∃ f, tableFactor table (lowerString category) (lowerString activity) = some f) := by
  cases hc : lookupCategory table (lowerString category) with
  | none => simp [calculate_emission, tableFactor, hc]
  | some acts =>
    cases ha : lookupActivity acts (lowerString activity) with
    | none => simp [calculate_emission, tableFactor, hc, ha]
    | some g => simp [calculate_emission, tableFactor, hc, ha]

/-- C9: `get_equivalents` divides its argument by the four fixed constants,
rounding to 1 decimal place (0 for the smartphone count), and at `0` every
field is `0`. -/
theorem equivalents_formula (co2_kg : ℚ) :
    get_equivalents co2_kg =
      { trees_needed := pyRound (co2_kg / 21.77) 1
        km_by_car := pyRound (co2_kg / 0.192) 1
        smartphones_charged := pyRound (co2_kg / 0.008) 0
        hours_of_tv := pyRound (co2_kg / 0.088) 1 } ∧
    get_equivalents 0 =
      { trees_needed := 0, km_by_car := 0, smartphones_charged := 0,
        hours_of_tv := 0 } :=
  ⟨rfl, by with_unfolding_all decide⟩

/-- C4: on an empty record set both variants of the statistics operation
return the benign "no data yet" notice, which is a distinct outcome from a
division error (and from any failure). -/
theorem statistics_empty_notice :
    get_statistics [] = StatsOutcome.emptyNotice ∧
    simple_stats [] = StatsOutcome.emptyNotice ∧
    (StatsOutcome.emptyNotice : StatsOutcome Stats) ≠ StatsOutcome.divisionError :=
  ⟨rfl, rfl, fun hc => StatsOutcome.noConfusion hc⟩

/-- C6: for every successful calculation, the produced `co2_kg` — the value
the pipeline persists — is the raw product `amount * factor` with no
rounding, the 2-decimal rounding appearing only in the displayed field; and
whenever statistics succeeds, its internal total is the sum of the stored
unrounded values, the rounding again applied only to the displayed total. -/
theorem persisted_co2_unrounded (table : FactorTable)
    (category activity u : String) (amount : ℚ) (i ts : ℕ) (res : CalcResult)
    (h : calculate_emission table category activity amount = Except.ok res) :
    res.co2_kg = amount * res.factor_used ∧
    (persistRecord res u i ts).co2_kg = amount * res.factor_used ∧
    res.displayed_co2_kg = pyRound (amount * res.factor_used) 2 ∧
    (∀ db s, get_statistics db = StatsOutcome.ok s →
      s.total_co2 = (db.map EmissionRecord.co2_kg).sum ∧
      s.total_emissions_kg = pyRound s.total_co2 2) := by
  have hres : res.co2_kg = amount * res.factor_used ∧
      res.displayed_co2_kg = pyRound (amount * res.factor_used) 2 := by
    cases hc : lookupCategory table (lowerString category) with
    | none => simp [calculate_emission, hc] at h
    | some acts =>
      cases ha : lookupActivity acts (lowerString activity) with
      | none => simp [calculate_emission, hc, ha] at h
      | some g =>
        simp only [calculate_emission, hc, ha, Except.ok.injEq] at h
        rw [← h]
        exact ⟨rfl, rfl⟩
  refine ⟨hres.1, hres.1, hres.2, ?_⟩
  intro db s hs
  unfold get_statistics at hs
  by_cases h1 : db.isEmpty
  · rw [if_pos h1] at hs; exact absurd hs (fun hc => StatsOutcome.noConfusion hc)
  · rw [if_neg h1] at hs
    by_cases h2 : (db.map EmissionRecord.co2_kg).sum = 0
    · rw [if_pos h2] at hs; exact absurd hs (fun hc => StatsOutcome.noConfusion hc)
    · rw [if_neg h2] at hs
      cases hs
      exact ⟨rfl, rfl⟩

/-- A calculation result of the ORM variant used to witness C6:
`calculate("food", "beef", 10)` with factor 27. -/
def demoCalcResult : CalcResult :=
  { category := "food", activity := "beef", amount := 10, co2_kg := 270,
    displayed_co2_kg := 270, factor_used := 27 }

/-- Witness for C6: the concrete calculation `("food", "beef", 10)`
produces and persists the unrounded `270 = 10 * 27`. -/
theorem persisted_co2_unrounded_witness :
    demoCalcResult.co2_kg = 10 * demoCalcResult.factor_used ∧
    (persistRecord demoCalcResult ("kg") 1 0).co2_kg =
        10 * demoCalcResult.factor_used ∧
    demoCalcResult.displayed_co2_kg = pyRound (10 * demoCalcResult.factor_used) 2 ∧
    (∀ db s, get_statistics db = StatsOutcome.ok s →
      s.total_co2 = (db.map EmissionRecord.co2_kg).sum ∧
      s.total_emissions_kg = pyRound s.total_co2 2) :=
  persisted_co2_unrounded CARBON_FACTORS ("food") ("beef") ("kg") 10 1 0 demoCalcResult
    (by with_unfolding_all decide)

/-- A record with `co2_kg = 0`, as produced by a zero amount. -/
def zeroRecord : EmissionRecord :=
  { id := 1, category := "waste", activity := "landfill", amount := 0,
    unit := "kg", co2_kg := 0, timestamp := 0 }

/-- C10 counterexample: a zero amount is accepted by the calculator and
produces a persisted `co2_kg` of `0`; on the resulting non-empty record set
both statistics variants hit the division by `total_co2 = 0` and raise
`ZeroDivisionError` instead of returning a result. -/
theorem statistics_zero_total_division_error :
    (calculate_emission CARBON_FACTORS ("waste") ("landfill") 0).map
        CalcResult.co2_kg = Except.ok 0 ∧
    [zeroRecord] ≠ ([] : List EmissionRecord) ∧
    get_statistics [zeroRecord] = StatsOutcome.divisionError ∧
    simple_stats [zeroRecord] = StatsOutcome.divisionError :=
  ⟨by with_unfolding_all decide, by simp,
   by with_unfolding_all decide, by with_unfolding_all decide⟩

/-- After sorting and `LIMIT 20`, a non-empty store still yields a non-empty
record list. -/
theorem simple_get_all_records_ne_nil (db : List EmissionRecord) (hne : db ≠ []) :
    simple_get_all_records db ≠ [] := by
  unfold simple_get_all_records orderByTimestampDesc
  intro h
  have hlen := congrArg List.length h
  simp only [List.length_take, List.length_insertionSort, List.length_nil] at hlen
  have : db.length = 0 := by omega
  exact hne (List.length_eq_zero.mp this)

/-- C10 amended: for every non-empty record set, statistics returns a result
without a division error exactly when the summed `co2_kg` is nonzero; when
the sum is exactly zero (reachable, since zero amounts are accepted) the
per-category percentage computation divides by zero and both variants raise
`ZeroDivisionError`. -/
theorem statistics_nonempty_division_error_iff_zero_total
    (db : List EmissionRecord) (hne : db ≠ []) :
    ((db.map EmissionRecord.co2_kg).sum ≠ 0 → (get_statistics db).isOk = true) ∧
    ((db.map EmissionRecord.co2_kg).sum = 0 → get_statistics db = StatsOutcome.divisionError) ∧
    (((simple_get_all_records db).map EmissionRecord.co2_kg).sum ≠ 0 →
        (simple_stats db).isOk = true) ∧
    (((simple_get_all_records db).map EmissionRecord.co2_kg).sum = 0 →
        simple_stats db = StatsOutcome.divisionError) := by
  have h1 : db.isEmpty = false := by
    cases db with
    | nil => exact absurd rfl hne
    | cons r rest => rfl
  have h1' : (simple_get_all_records db).isEmpty = false := by
    cases hsg : simple_get_all_records db with
    | nil => exact absurd hsg (simple_get_all_records_ne_nil db hne)
    | cons r rest => rfl
  refine ⟨?_, ?_, ?_, ?_⟩
  · intro hnz
    unfold get_statistics
    rw [h1]
    simp only [Bool.false_eq_true, if_false, if_neg hnz]
    rfl
  · intro hz
    unfold get_statistics
    rw [h1]
    simp only [Bool.false_eq_true, if_false, if_pos hz]
  · intro hnz
    unfold simple_stats
    simp only [h1', Bool.false_eq_true, if_false, if_neg hnz]
    rfl
  · intro hz
    unfold simple_stats
    simp only [h1', Bool.false_eq_true, if_false, if_pos hz]

/-- Witness for C10's amended theorem at a concrete input: a singleton
record set with `co2_kg = 270` has nonzero total, so both variants succeed;
the zero-total branches hold vacuously there. -/
theorem statistics_nonempty_division_error_iff_zero_total_witness :
    (([persistRecord demoCalcResult ("kg") 1 0].map EmissionRecord.co2_kg).sum ≠ 0 →
        (get_statistics [persistRecord demoCalcResult ("kg") 1 0]).isOk = true) ∧
    (([persistRecord demoCalcResult ("kg") 1 0].map EmissionRecord.co2_kg).sum = 0 →
        get_statistics [persistRecord demoCalcResult ("kg") 1 0] =
          StatsOutcome.divisionError) ∧
    (((simple_get_all_records [persistRecord demoCalcResult ("kg") 1 0]).map
          EmissionRecord.co2_kg).sum ≠ 0 →
        (simple_stats [persistRecord demoCalcResult ("kg") 1 0]).isOk = true) ∧
    (((simple_get_all_records [persistRecord demoCalcResult ("kg") 1 0]).map
          EmissionRecord.co2_kg).sum = 0 →
        simple_stats [persistRecord demoCalcResult ("kg") 1 0] =
          StatsOutcome.divisionError) :=
  statistics_nonempty_division_error_iff_zero_total
    [persistRecord demoCalcResult ("kg") 1 0] (by simp)

/-- A running `min` over timestamps never exceeds its starting value. -/
theorem foldl_min_le_init (l : List EmissionRecord) (a : ℕ) :
    l.foldl (fun m x => min m x.timestamp) a ≤ a := by
  induction l generalizing a with
  | nil => exact Nat.le_refl a
  | cons x xs ih =>
    exact Nat.le_trans (ih (min a x.timestamp)) (Nat.min_le_left a x.timestamp)

/-- A running `max` over timestamps never drops below its starting value. -/
theorem init_le_foldl_max (l : List EmissionRecord) (a : ℕ) :
    a ≤ l.foldl (fun m x => max m x.timestamp) a := by
  induction l generalizing a with
  | nil => exact Nat.le_refl a
  | cons x xs ih =>
    exact Nat.le_trans (Nat.le_max_left a x.timestamp) (ih (max a x.timestamp))

/-- The oldest timestamp of a record set is at most the newest. -/
theorem oldestTimestamp_le_newestTimestamp (db : List EmissionRecord) :
    oldestTimestamp db ≤ newestTimestamp db := by
  cases db with
  | nil => exact Nat.le_refl 0
  | cons r rest =>
    exact Nat.le_trans (foldl_min_le_init rest r.timestamp)
      (init_le_foldl_max rest r.timestamp)

/-- C8: whenever the ORM statistics reports (non-empty set, nonzero total),
the internal daily average is `total_co2 / max(1, days between oldest and
newest timestamp)` — the reported figure being its 2-decimal display
rounding — the divisor `days_diff or 1` equals `max 1 days`, is positive,
and is `1` whenever oldest and newest fall on the same calendar day. -/
theorem daily_average_formula (db : List EmissionRecord) (hne : db ≠ [])
    (hnz : (db.map EmissionRecord.co2_kg).sum ≠ 0) :
    ((get_statistics db).toOption.map Stats.daily_average) =
      some ((db.map EmissionRecord.co2_kg).sum / ((max 1 (daysBetween db) : ℕ) : ℚ)) ∧
    ((get_statistics db).toOption.map Stats.daily_average_kg) =
      some (pyRound ((db.map EmissionRecord.co2_kg).sum /
        ((max 1 (daysBetween db) : ℕ) : ℚ)) 2) ∧
    ((get_statistics db).toOption.map Stats.recording_period_days) =
      some (max 1 (daysBetween db)) ∧
    recordingPeriodDays db = max 1 (daysBetween db) ∧
    0 < recordingPeriodDays db ∧
    (oldestTimestamp db / 86400 = newestTimestamp db / 86400 →
      recordingPeriodDays db = 1) := by
  have h1 : db.isEmpty = false := by
    cases db with
    | nil => exact absurd rfl hne
    | cons r rest => rfl
  have hmax : recordingPeriodDays db = max 1 (daysBetween db) := by
    unfold recordingPeriodDays
    split <;> omega
  have hsame : oldestTimestamp db / 86400 = newestTimestamp db / 86400 →
      recordingPeriodDays db = 1 := by
    intro hq
    have hle := oldestTimestamp_le_newestTimestamp db
    rw [hmax]
    unfold daysBetween
    omega
  refine ⟨?_, ?_, ?_, hmax, by rw [hmax]; omega, hsame⟩ <;>
  · unfold get_statistics
    simp only [h1, Bool.false_eq_true, if_false, if_neg hnz, StatsOutcome.toOption,
      Option.map_some', hmax]

/-- A one-record store used to witness the statistics theorems. -/
def demoDb : List EmissionRecord :=
  [persistRecord demoCalcResult ("kg") 1 0]

/-- Witness for C8 at the concrete one-record store: non-emptiness and the
nonzero total are discharged by computation. -/
theorem daily_average_formula_witness :
    ((get_statistics demoDb).toOption.map Stats.daily_average) =
      some ((demoDb.map EmissionRecord.co2_kg).sum /
        ((max 1 (daysBetween demoDb) : ℕ) : ℚ)) ∧
    ((get_statistics demoDb).toOption.map Stats.daily_average_kg) =
      some (pyRound ((demoDb.map EmissionRecord.co2_kg).sum /
        ((max 1 (daysBetween demoDb) : ℕ) : ℚ)) 2) ∧
    ((get_statistics demoDb).toOption.map Stats.recording_period_days) =
      some (max 1 (daysBetween demoDb)) ∧
    recordingPeriodDays demoDb = max 1 (daysBetween demoDb) ∧
    0 < recordingPeriodDays demoDb ∧
    (oldestTimestamp demoDb / 86400 = newestTimestamp demoDb / 86400 →
      recordingPeriodDays demoDb = 1) :=
  daily_average_formula demoDb (by with_unfolding_all decide)
    (by with_unfolding_all decide)

/-- The sorted query result really is most-recent-first. -/
theorem sorted_orderByTimestampDesc (db : List EmissionRecord) :
    List.Sorted (fun a b : EmissionRecord => b.timestamp ≤ a.timestamp)
      (orderByTimestampDesc db) := by
  letI : IsTotal EmissionRecord (fun a b => b.timestamp ≤ a.timestamp) :=
    ⟨fun a b => le_total b.timestamp a.timestamp⟩
  letI : IsTrans EmissionRecord (fun a b => b.timestamp ≤ a.timestamp) :=
    ⟨fun a b c hab hbc => le_trans hbc hab⟩
  exact List.sorted_insertionSort _ db

/-- C7: the history endpoint's `limit` parameter defaults to 20; the response
holds at most `limit` records, their timestamps are in most-recent-first
order, and the reported total is the (display-rounded) sum of exactly the
returned records' co2; the raw-SQL variant behaves as the ORM variant at the
default limit of 20. -/
theorem history_limit_order_total (limit : ℕ) (db : List EmissionRecord) :
    (get_history limit db).records.length ≤ limit ∧
    (get_history limit db).total_records ≤ limit ∧
    List.Sorted (fun a b : ℕ => b ≤ a)
      ((get_history limit db).records.map HistoryRow.timestamp) ∧
    (get_history limit db).total_co2_kg =
      pyRound ((((orderByTimestampDesc db).take limit).map
        EmissionRecord.co2_kg).sum) 2 ∧
    DEFAULT_HISTORY_LIMIT = 20 ∧
    (simple_history db).total_records =
      (get_history DEFAULT_HISTORY_LIMIT db).total_records ∧
    (simple_history db).total_co2_kg =
      (get_history DEFAULT_HISTORY_LIMIT db).total_co2_kg ∧
    (simple_history db).records.map HistoryRow.timestamp =
      (get_history DEFAULT_HISTORY_LIMIT db).records.map HistoryRow.timestamp := by
  have hsorted : List.Sorted (fun a b : ℕ => b ≤ a)
      ((get_history limit db).records.map HistoryRow.timestamp) := by
    have h1 := (sorted_orderByTimestampDesc db).sublist
      (List.take_sublist limit (orderByTimestampDesc db))
    simp only [get_history, List.map_map]
    exact (List.pairwise_map).2 h1
  refine ⟨?_, ?_, hsorted, rfl, rfl, ?_, rfl, ?_⟩
  · simp only [get_history, List.length_map]
    exact List.length_take_le limit _
  · simp only [get_history, List.length_map]
    exact List.length_take_le limit _
  · simp [get_history, simple_history, simple_get_all_records, DEFAULT_HISTORY_LIMIT]
  · unfold simple_history get_history simple_get_all_records DEFAULT_HISTORY_LIMIT
    simp only [List.map_map]
    congr 1

/-- The four recommendation strings are pairwise distinct. -/
theorem rec_msgs_nodup :
    ([TRANSPORT_MSG, FOOD_MSG, ELECTRICITY_MSG, BALANCED_MSG] : List String).Nodup := by
  decide

/-- Two categories with the same canned message are the same category. -/
theorem msgFor_inj {c c' m : String} (h : msgFor c = some m)
    (h' : msgFor c' = some m) : c = c' := by
  have hnd := rec_msgs_nodup
  simp only [List.nodup_cons, List.mem_cons, List.mem_singleton,
    List.not_mem_nil, or_false, List.nodup_nil, and_true, not_or] at hnd
  unfold msgFor at h h'
  split_ifs at h h' <;>
    simp_all only [Option.some.injEq, beq_iff_eq] <;> simp_all

/-- A canned message is one of the three category messages. -/
theorem cannedRec_mem_msgs {e : String × ℚ} {m : String}
    (h : cannedRec e = some m) :
    m = TRANSPORT_MSG ∨ m = FOOD_MSG ∨ m = ELECTRICITY_MSG := by
  unfold cannedRec msgFor at h
  split_ifs at h <;> simp_all

/-- The number of canned messages is the number of breakdown entries that
produce one. -/
theorem length_filterMap_cannedRec (b : List (String × ℚ)) :
    (b.filterMap cannedRec).length = b.countP (fun e => (cannedRec e).isSome) := by
  induction b with
  | nil => rfl
  | cons e t ih =>
    cases h : cannedRec e <;>
      simp [List.filterMap_cons, h, List.countP_cons, ih]

/-- With categories unique (a Python dict), the canned message of category
`c` appears in the filtered list exactly once when `c` is present with a
percentage above 40, and not at all otherwise. -/
theorem count_filterMap_cannedRec (c m : String) (hm : msgFor c = some m) :
    ∀ b : List (String × ℚ), (b.map Prod.fst).Nodup →
      (b.filterMap cannedRec).count m =
        if b.any (fun e => e.1 == c && decide (e.2 > 40)) then 1 else 0 := by
  intro b
  induction b with
  | nil => intro _; rfl
  | cons e t ih =>
    intro hnd
    rw [List.map_cons, List.nodup_cons] at hnd
    obtain ⟨hnotin, hndt⟩ := hnd
    by_cases hp : e.2 > 40
    · cases hmf : msgFor e.1 with
      | none =>
        have hne : (e.1 == c) = false := by
          rcases hbe : e.1 == c with _ | _
          · rfl
          · rw [eq_of_beq hbe, hm] at hmf; cases hmf
        simp only [cannedRec, if_pos hp, hmf, List.filterMap_cons, List.any_cons,
          hne, Bool.false_and, Bool.false_or]
        exact ih hndt
      | some m' =>
        by_cases he : e.1 = c
        · subst he
          have hmm : m' = m := by
            have h2 := hm.symm.trans hmf
            exact (Option.some.inj h2).symm
          subst hmm
          have hany : t.any (fun x => x.1 == e.1 && decide (x.2 > 40)) = false := by
            rw [List.any_eq_false]
            intro x hx hpx
            simp only [Bool.and_eq_true, beq_iff_eq] at hpx
            exact hnotin (hpx.1 ▸ List.mem_map_of_mem Prod.fst hx)
          have hzero := ih hndt
          rw [hany, if_neg (Bool.false_ne_true)] at hzero
          simp only [cannedRec, if_pos hp, hmf, List.filterMap_cons, List.any_cons,
            beq_self_eq_true, decide_eq_true hp, Bool.and_self, Bool.true_or,
            List.count_cons, hzero, if_pos rfl]
          simp
        · have hm' : (m' == m) = false := by
            rcases hbe : m' == m with _ | _
            · rfl
            · have hmm : m' = m := eq_of_beq hbe
              rw [hmm] at hmf
              exact absurd (msgFor_inj hmf hm) he
          have hne : (e.1 == c) = false := by
            rcases hbe : e.1 == c with _ | _
            · rfl
            · exact absurd (eq_of_beq hbe) he
          simp only [cannedRec, if_pos hp, hmf, List.filterMap_cons, List.any_cons,
            hne, Bool.false_and, Bool.false_or, List.count_cons, hm']
          simpa using ih hndt
    · have hdp : (decide (e.2 > 40)) = false := by
        simpa using hp
      simp only [cannedRec, if_neg hp, List.filterMap_cons, List.any_cons, hdp,
        Bool.and_false, Bool.false_or]
      exact ih hndt

/-- C5: over any breakdown with unique categories (a Python dict), the
recommendation list holds exactly one canned message for each of
`transport`, `food`, `electricity` whose percentage strictly exceeds 40 and
none otherwise; every element is one of the three canned messages or the
balanced message (so a `waste` share above 40 adds nothing — the list length
is `max 1 (number of entries with a canned message)`); and when no entry
exceeds 40 the list is exactly the single balanced message. -/
theorem recommendation_policy (b : List (String × ℚ))
    (hnd : (b.map Prod.fst).Nodup) :
    ((get_recommendations b).count TRANSPORT_MSG =
      if b.any (fun e => e.1 == "transport" && decide (e.2 > 40)) then 1 else 0) ∧
    ((get_recommendations b).count FOOD_MSG =
      if b.any (fun e => e.1 == "food" && decide (e.2 > 40)) then 1 else 0) ∧
    ((get_recommendations b).count ELECTRICITY_MSG =
      if b.any (fun e => e.1 == "electricity" && decide (e.2 > 40)) then 1 else 0) ∧
    (∀ m ∈ get_recommendations b,
      m = TRANSPORT_MSG ∨ m = FOOD_MSG ∨ m = ELECTRICITY_MSG ∨ m = BALANCED_MSG) ∧
    ((get_recommendations b).length =
      max 1 (b.countP (fun e => (cannedRec e).isSome))) ∧
    ((∀ e ∈ b, ¬(e.2 > 40)) → get_recommendations b = [BALANCED_MSG]) := by
  by_cases hrecs : b.filterMap cannedRec = []
  · have hget : get_recommendations b = [BALANCED_MSG] := by
      simp [get_recommendations, hrecs]
    have hall : ∀ e ∈ b, cannedRec e = none := List.filterMap_eq_nil_iff.mp hrecs
    have hany : ∀ c m' : String, msgFor c = some m' →
        b.any (fun e => e.1 == c && decide (e.2 > 40)) = false := by
      intro c m' hc
      rw [List.any_eq_false]
      intro e he hpe
      simp only [Bool.and_eq_true, beq_iff_eq, decide_eq_true_eq] at hpe
      have hnone := hall e he
      rw [cannedRec, if_pos hpe.2, hpe.1, hc] at hnone
      cases hnone
    have hcntP : b.countP (fun e => (cannedRec e).isSome) = 0 := by
      rw [List.countP_eq_zero]
      intro e he
      rw [hall e he]
      exact Bool.false_ne_true
    refine ⟨?_, ?_, ?_, ?_, ?_, fun _ => hget⟩
    · rw [hget, hany ("transport") TRANSPORT_MSG (by decide)]
      simpa using by decide
    · rw [hget, hany ("food") FOOD_MSG (by decide)]
      simpa using by decide
    · rw [hget, hany ("electricity") ELECTRICITY_MSG (by decide)]
      simpa using by decide
    · rw [hget]
      intro m hm
      rw [List.mem_singleton] at hm
      exact Or.inr (Or.inr (Or.inr hm))
    · rw [hget, hcntP]
      rfl
  · have hne : (b.filterMap cannedRec).isEmpty = false := by
      cases h : b.filterMap cannedRec with
      | nil => exact absurd h hrecs
      | cons x xs => rfl
    have hget : get_recommendations b = b.filterMap cannedRec := by
      simp [get_recommendations, hne]
    have hpos : 1 ≤ b.countP (fun e => (cannedRec e).isSome) := by
      rw [← length_filterMap_cannedRec]
      exact List.length_pos.mpr hrecs
    refine ⟨?_, ?_, ?_, ?_, ?_, ?_⟩
    · rw [hget]
      exact count_filterMap_cannedRec ("transport") TRANSPORT_MSG (by decide) b hnd
    · rw [hget]
      exact count_filterMap_cannedRec ("food") FOOD_MSG (by decide) b hnd
    · rw [hget]
      exact count_filterMap_cannedRec ("electricity") ELECTRICITY_MSG (by decide) b hnd
    · intro m hm
      rw [hget] at hm
      obtain ⟨e, _, hce⟩ := List.mem_filterMap.mp hm
      rcases cannedRec_mem_msgs hce with h | h | h
      · exact Or.inl h
      · exact Or.inr (Or.inl h)
      · exact Or.inr (Or.inr (Or.inl h))
    · rw [hget, length_filterMap_cannedRec]
      omega
    · intro hnone
      exfalso
      apply hrecs
      rw [List.filterMap_eq_nil_iff]
      intro e he
      rw [cannedRec, if_neg (hnone e he)]

/-- The spec's worked breakdown: food at 91.8 %, transport at 6.5 %,
electricity at 1.7 %. -/
def demoBreakdown : List (String × ℚ) :=
  [("food", 91.8), ("transport", 6.5), ("electricity", 1.7)]

/-- Witness for C5 at the spec's worked breakdown (only food exceeds 40). -/
theorem recommendation_policy_witness :
    ((get_recommendations demoBreakdown).count TRANSPORT_MSG =
      if demoBreakdown.any (fun e => e.1 == "transport" && decide (e.2 > 40)) then 1 else 0) ∧
    ((get_recommendations demoBreakdown).count FOOD_MSG =
      if demoBreakdown.any (fun e => e.1 == "food" && decide (e.2 > 40)) then 1 else 0) ∧
    ((get_recommendations demoBreakdown).count ELECTRICITY_MSG =
      if demoBreakdown.any (fun e => e.1 == "electricity" && decide (e.2 > 40)) then 1 else 0) ∧
    (∀ m ∈ get_recommendations demoBreakdown,
      m = TRANSPORT_MSG ∨ m = FOOD_MSG ∨ m = ELECTRICITY_MSG ∨ m = BALANCED_MSG) ∧
    ((get_recommendations demoBreakdown).length =
      max 1 (demoBreakdown.countP (fun e => (cannedRec e).isSome))) ∧
    ((∀ e ∈ demoBreakdown, ¬(e.2 > 40)) →
      get_recommendations demoBreakdown = [BALANCED_MSG]) :=
  recommendation_policy demoBreakdown (by decide)

/-! ## Per-category sums: the breakdown loops really total each category -/

/-- The sum of the stored co2 of the records of one category. -/
def catSum (db : List EmissionRecord) (c : String) : ℚ :=
  ((db.filter (fun r => r.category == c)).map EmissionRecord.co2_kg).sum

/-- The running total the ORM breakdown holds for a category (0 if absent). -/
def breakdownTotal (b : List CategoryEntry) (c : String) : ℚ :=
  match b.find? (fun e => e.category == c) with
  | some e => e.total
  | none => 0

/-- One breakdown step adds the record's co2 to exactly its category's
running total. -/
theorem breakdownTotal_addToBreakdown (b : List CategoryEntry)
    (r : EmissionRecord) (c : String) :
    breakdownTotal (addToBreakdown b r) c =
      breakdownTotal b c + (if r.category == c then r.co2_kg else 0) := by
  unfold addToBreakdown breakdownTotal
  by_cases hb : b.any (fun e => e.category == r.category)
  · rw [if_pos hb]
    rw [List.find?_map]
    have hcomp : ((fun e : CategoryEntry => e.category == c) ∘ fun e =>
        if e.category == r.category then
          { e with
            total := e.total + r.co2_kg
            count := e.count + 1
            activities := addActivity e.activities r.activity r.co2_kg }
        else e) = fun e : CategoryEntry => e.category == c := by
      funext e
      by_cases he : e.category = r.category <;> simp [he, beq_iff_eq]
    rw [hcomp]
    cases hf : b.find? (fun e => e.category == c) with
    | none =>
      have hrc : (r.category == c) = false := by
        rcases hbe : r.category == c with _ | _
        · rfl
        · obtain ⟨e, he, hec⟩ := List.any_eq_true.mp hb
          have := List.find?_eq_none.mp hf e he
          rw [eq_of_beq hec, hbe] at this
          exact absurd rfl this
      simp [hrc]
    | some e0 =>
      have he0 : (e0.category == c) = true := by
        have h2 := List.find?_some hf
        exact h2
      by_cases hrc : r.category = c
      · subst hrc
        simp only [Option.map_some', he0]
        simp [beq_self_eq_true]
      · have hb1 : (e0.category == r.category) = false := by
          rcases hbe : e0.category == r.category with _ | _
          · rfl
          · rw [eq_of_beq hbe] at he0
            exact absurd (eq_of_beq he0) hrc
        have hne : ¬(e0.category = r.category) := by
          intro hh
          rw [hh, beq_self_eq_true] at hb1
          cases hb1
        have hrc' : (r.category == c) = false := by
          rcases hbe : r.category == c with _ | _
          · rfl
          · exact absurd (eq_of_beq hbe) hrc
        simp only [Option.map_some', hrc', Bool.false_eq_true, if_false, add_zero]
        simp [hb1]
  · rw [if_neg hb]
    rw [List.find?_append]
    cases hf : b.find? (fun e => e.category == c) with
    | none =>
      by_cases hrc : r.category = c
      · simp [List.find?, hrc]
      · have hrc' : (r.category == c) = false := by
          rcases hbe : r.category == c with _ | _
          · rfl
          · exact absurd (eq_of_beq hbe) hrc
        simp [List.find?, hrc']
    | some e0 =>
      have he0 : (e0.category == c) = true := by
        have h2 := List.find?_some hf
        exact h2
      have hrc : (r.category == c) = false := by
        rcases hbe : r.category == c with _ | _
        · rfl
        · exfalso
          have hb' : b.any (fun e => e.category == r.category) = false := by
            rcases hany : b.any (fun e => e.category == r.category) with _ | _
            · rfl
            · exact absurd hany hb
          rw [List.any_eq_false] at hb'
          have hmem := List.mem_of_find?_eq_some hf
          exact hb' e0 hmem
            (by rw [eq_of_beq he0, eq_of_beq hbe]; exact beq_self_eq_true c)
      simp [hrc]

/-- Folding records into a breakdown adds each record's co2 to its
category's running total. -/
theorem breakdownTotal_foldl (db : List EmissionRecord) :
    ∀ (b : List CategoryEntry) (c : String),
      breakdownTotal (db.foldl addToBreakdown b) c =
        breakdownTotal b c + catSum db c := by
  induction db with
  | nil =>
    intro b c
    simp [catSum]
  | cons r t ih =>
    intro b c
    rw [List.foldl_cons, ih, breakdownTotal_addToBreakdown]
    unfold catSum
    rw [List.filter_cons]
    by_cases hrc : (r.category == c) = true
    · simp only [hrc, if_pos, List.map_cons, List.sum_cons]
      ring
    · rw [Bool.not_eq_true] at hrc
      simp only [hrc, Bool.false_eq_true, if_false, if_neg]
      ring

/-- The breakdown built by `get_statistics` gives each category the sum of
its records' co2. -/
theorem breakdownTotal_buildBreakdown (db : List EmissionRecord) (c : String) :
    breakdownTotal (buildBreakdown db) c = catSum db c := by
  have h := breakdownTotal_foldl db [] c
  simpa [buildBreakdown, breakdownTotal] using h

/-- One breakdown step keeps the category keys unique (the dict invariant). -/
theorem nodup_addToBreakdown (b : List CategoryEntry) (r : EmissionRecord)
    (h : (b.map CategoryEntry.category).Nodup) :
    ((addToBreakdown b r).map CategoryEntry.category).Nodup := by
  unfold addToBreakdown
  by_cases hb : b.any (fun e => e.category == r.category)
  · rw [if_pos hb, List.map_map]
    have hmap : b.map (CategoryEntry.category ∘ fun e =>
        if e.category == r.category then
          { e with
            total := e.total + r.co2_kg
            count := e.count + 1
            activities := addActivity e.activities r.activity r.co2_kg }
        else e) = b.map CategoryEntry.category := by
      apply List.map_congr_left
      intro e _
      by_cases he : e.category = r.category <;> simp [he, beq_iff_eq]
    rw [hmap]
    exact h
  · rw [if_neg hb, List.map_append]
    rw [List.nodup_append]
    refine ⟨h, List.nodup_singleton _, ?_⟩
    intro x hx hx'
    rw [List.mem_map] at hx
    obtain ⟨e, he, hec⟩ := hx
    rw [List.map_cons, List.map_nil, List.mem_singleton] at hx'
    apply hb
    rw [List.any_eq_true]
    refine ⟨e, he, ?_⟩
    rw [hec, hx']
    exact beq_self_eq_true r.category

/-- The breakdown of `get_statistics` has unique category keys. -/
theorem nodup_buildBreakdown (db : List EmissionRecord) :
    ((buildBreakdown db).map CategoryEntry.category).Nodup := by
  have hgen : ∀ b : List CategoryEntry, (b.map CategoryEntry.category).Nodup →
      ((db.foldl addToBreakdown b).map CategoryEntry.category).Nodup := by
    induction db with
    | nil => intro b hb; exact hb
    | cons r t ih =>
      intro b hb
      rw [List.foldl_cons]
      exact ih (addToBreakdown b r) (nodup_addToBreakdown b r hb)
  exact hgen [] List.nodup_nil

/-- In a list with unique category keys, looking up a member's category
finds that member. -/
theorem find?_category_eq_of_mem {b : List CategoryEntry} {e : CategoryEntry}
    (hnd : (b.map CategoryEntry.category).Nodup) (he : e ∈ b) :
    b.find? (fun x => x.category == e.category) = some e := by
  induction b with
  | nil => cases he
  | cons x t ih =>
    rw [List.map_cons, List.nodup_cons] at hnd
    rcases List.mem_cons.mp he with rfl | ht
    · exact List.find?_cons_of_pos t (beq_self_eq_true e.category)
    · have hx : ¬((fun x : CategoryEntry => x.category == e.category) x = true) := by
        intro hbe
        exact hnd.1 ((eq_of_beq hbe) ▸ List.mem_map_of_mem CategoryEntry.category ht)
      rw [List.find?_cons_of_neg t hx]
      exact ih hnd.2 ht

/-- Every entry of the ORM breakdown totals exactly its category's records. -/
theorem mem_buildBreakdown_total (db : List EmissionRecord)
    (e : CategoryEntry) (he : e ∈ buildBreakdown db) :
    e.total = catSum db e.category := by
  have h := breakdownTotal_buildBreakdown db e.category
  rw [breakdownTotal, find?_category_eq_of_mem (nodup_buildBreakdown db) he] at h
  exact h

/-- The running total the raw-SQL breakdown dict holds for a category. -/
def pairTotal (b : List (String × ℚ)) (c : String) : ℚ :=
  match b.find? (fun e => e.1 == c) with
  | some e => e.2
  | none => 0

/-- One raw-SQL breakdown step adds the record's co2 to exactly its
category's running total. -/
theorem pairTotal_simpleAddToBreakdown (b : List (String × ℚ))
    (r : EmissionRecord) (c : String) :
    pairTotal (simpleAddToBreakdown b r) c =
      pairTotal b c + (if r.category == c then r.co2_kg else 0) := by
  unfold simpleAddToBreakdown pairTotal
  by_cases hb : b.any (fun e => e.1 == r.category)
  · rw [if_pos hb]
    rw [List.find?_map]
    have hcomp : ((fun e : String × ℚ => e.1 == c) ∘ fun e =>
        if e.1 == r.category then (e.1, e.2 + r.co2_kg) else e) =
        fun e : String × ℚ => e.1 == c := by
      funext e
      by_cases he : e.1 = r.category <;> simp [he, beq_iff_eq]
    rw [hcomp]
    cases hf : b.find? (fun e => e.1 == c) with
    | none =>
      have hrc : (r.category == c) = false := by
        rcases hbe : r.category == c with _ | _
        · rfl
        · obtain ⟨e, he, hec⟩ := List.any_eq_true.mp hb
          have hno := List.find?_eq_none.mp hf e he
          rw [eq_of_beq hec, hbe] at hno
          exact absurd rfl hno
      simp [hrc]
    | some e0 =>
      have he0 : (e0.1 == c) = true := by
        have h2 := List.find?_some hf
        exact h2
      by_cases hrc : r.category = c
      · subst hrc
        simp only [Option.map_some', he0]
        simp [beq_self_eq_true]
      · have hb1 : (e0.1 == r.category) = false := by
          rcases hbe : e0.1 == r.category with _ | _
          · rfl
          · rw [eq_of_beq hbe] at he0
            exact absurd (eq_of_beq he0) hrc
        have hrc' : (r.category == c) = false := by
          rcases hbe : r.category == c with _ | _
          · rfl
          · exact absurd (eq_of_beq hbe) hrc
        simp only [Option.map_some', hrc', Bool.false_eq_true, if_false, add_zero]
        simp [hb1]
  · rw [if_neg hb]
    rw [List.find?_append]
    cases hf : b.find? (fun e => e.1 == c) with
    | none =>
      by_cases hrc : r.category = c
      · simp [List.find?, hrc]
      · have hrc' : (r.category == c) = false := by
          rcases hbe : r.category == c with _ | _
          · rfl
          · exact absurd (eq_of_beq hbe) hrc
        simp [List.find?, hrc']
    | some e0 =>
      have he0 : (e0.1 == c) = true := by
        have h2 := List.find?_some hf
        exact h2
      have hrc : (r.category == c) = false := by
        rcases hbe : r.category == c with _ | _
        · rfl
        · exfalso
          have hb' : b.any (fun e => e.1 == r.category) = false := by
            rcases hany : b.any (fun e => e.1 == r.category) with _ | _
            · rfl
            · exact absurd hany hb
          rw [List.any_eq_false] at hb'
          have hmem := List.mem_of_find?_eq_some hf
          exact hb' e0 hmem
            (by rw [eq_of_beq he0, eq_of_beq hbe]; exact beq_self_eq_true c)
      simp [hrc]

/-- Folding records into the raw-SQL breakdown adds each record's co2 to
its category's running total. -/
theorem pairTotal_foldl (db : List EmissionRecord) :
    ∀ (b : List (String × ℚ)) (c : String),
      pairTotal (db.foldl simpleAddToBreakdown b) c = pairTotal b c + catSum db c := by
  induction db with
  | nil =>
    intro b c
    simp [catSum]
  | cons r t ih =>
    intro b c
    rw [List.foldl_cons, ih, pairTotal_simpleAddToBreakdown]
    unfold catSum
    rw [List.filter_cons]
    by_cases hrc : (r.category == c) = true
    · simp only [hrc, if_pos, List.map_cons, List.sum_cons]
      ring
    · rw [Bool.not_eq_true] at hrc
      simp only [hrc, Bool.false_eq_true, if_false, if_neg]
      ring

/-- One raw-SQL breakdown step keeps category keys unique. -/
theorem nodup_simpleAddToBreakdown (b : List (String × ℚ)) (r : EmissionRecord)
    (h : (b.map Prod.fst).Nodup) :
    ((simpleAddToBreakdown b r).map Prod.fst).Nodup := by
  unfold simpleAddToBreakdown
  by_cases hb : b.any (fun e => e.1 == r.category)
  · rw [if_pos hb, List.map_map]
    have hmap : b.map (Prod.fst ∘ fun e : String × ℚ =>
        if e.1 == r.category then (e.1, e.2 + r.co2_kg) else e) = b.map Prod.fst := by
      apply List.map_congr_left
      intro e _
      by_cases he : e.1 = r.category <;> simp [he, beq_iff_eq]
    rw [hmap]
    exact h
  · rw [if_neg hb, List.map_append]
    rw [List.nodup_append]
    refine ⟨h, List.nodup_singleton _, ?_⟩
    intro x hx hx'
    rw [List.mem_map] at hx
    obtain ⟨e, he, hec⟩ := hx
    rw [List.map_cons, List.map_nil, List.mem_singleton] at hx'
    apply hb
    rw [List.any_eq_true]
    refine ⟨e, he, ?_⟩
    rw [hec, hx']
    exact beq_self_eq_true r.category

/-- The raw-SQL breakdown dict has unique category keys. -/
theorem nodup_simpleBreakdown (db : List EmissionRecord) :
    ((db.foldl simpleAddToBreakdown []).map Prod.fst).Nodup := by
  have hgen : ∀ b : List (String × ℚ), (b.map Prod.fst).Nodup →
      ((db.foldl simpleAddToBreakdown b).map Prod.fst).Nodup := by
    induction db with
    | nil => intro b hb; exact hb
    | cons r t ih =>
      intro b hb
      rw [List.foldl_cons]
      exact ih (simpleAddToBreakdown b r) (nodup_simpleAddToBreakdown b r hb)
  exact hgen [] List.nodup_nil

/-- In a pair list with unique keys, looking up a member's key finds it. -/
theorem find?_fst_eq_of_mem {b : List (String × ℚ)} {e : String × ℚ}
    (hnd : (b.map Prod.fst).Nodup) (he : e ∈ b) :
    b.find? (fun x => x.1 == e.1) = some e := by
  induction b with
  | nil => cases he
  | cons x t ih =>
    rw [List.map_cons, List.nodup_cons] at hnd
    rcases List.mem_cons.mp he with rfl | ht
    · exact List.find?_cons_of_pos t (beq_self_eq_true e.1)
    · have hx : ¬((fun x : String × ℚ => x.1 == e.1) x = true) := by
        intro hbe
        exact hnd.1 ((eq_of_beq hbe) ▸ List.mem_map_of_mem Prod.fst ht)
      rw [List.find?_cons_of_neg t hx]
      exact ih hnd.2 ht

/-- Every entry of the raw-SQL breakdown totals exactly its category's
records (within the queried subset). -/
theorem mem_simpleBreakdown_total (db : List EmissionRecord)
    (e : String × ℚ) (he : e ∈ db.foldl simpleAddToBreakdown []) :
    e.2 = catSum db e.1 := by
  have h := pairTotal_foldl db [] e.1
  rw [pairTotal, find?_fst_eq_of_mem (nodup_simpleBreakdown db) he] at h
  simpa [pairTotal] using h

/-- The i-th of 21 identical one-kilogram records. -/
def rec21 (i : ℕ) : EmissionRecord :=
  { id := i, category := "waste", activity := "landfill", amount := 2,
    unit := "kg", co2_kg := 1, timestamp := i }

/-- A store of 21 records, one more than the raw-SQL query's `LIMIT 20`. -/
def db21 : List EmissionRecord :=
  (List.range 21).map rec21

/-- C3 counterexample: on a store of 21 records of 1 kg each, the raw-SQL
`stats` endpoint — whose `get_all_records()` helper carries
`ORDER BY timestamp DESC LIMIT 20` — reports `total_co2 = 20` over the 20
most recent records, not the full-store sum 21. -/
theorem statistics_bounded_subset_counterexample :
    ((simple_stats db21).toOption.map SimpleStats.total_co2) ≠
      some ((db21.map EmissionRecord.co2_kg).sum) ∧
    ((simple_stats db21).toOption.map SimpleStats.total_co2) = some 20 ∧
    (db21.map EmissionRecord.co2_kg).sum = 21 ∧
    ((simple_stats db21).toOption.map SimpleStats.total_records) = some 20 ∧
    db21.length = 21 := by
  refine ⟨?_, ?_, ?_, ?_, ?_⟩ <;> with_unfolding_all decide

/-- C3 amended: the ORM `get_statistics` aggregates over the full record
set — its total is the sum of every persisted record's unrounded co2 and
each category's percentage is `round(100 * category_total / total_co2, 1)`
with the category total summed over all of that category's records; the
raw-SQL `stats`, however, aggregates over only the at most 20 most recent
records returned by `get_all_records()`, computing its total and
percentages the same way within that subset. -/
theorem statistics_aggregation_scope (db : List EmissionRecord)
    (hne : db ≠ []) (hnz : (db.map EmissionRecord.co2_kg).sum ≠ 0)
    (hnz20 : ((simple_get_all_records db).map EmissionRecord.co2_kg).sum ≠ 0) :
    ((get_statistics db).toOption.map Stats.total_co2) =
      some ((db.map EmissionRecord.co2_kg).sum) ∧
    (∀ s, get_statistics db = StatsOutcome.ok s → ∀ e ∈ s.breakdown,
      e.percentage =
        pyRound (catSum db e.category / (db.map EmissionRecord.co2_kg).sum * 100) 1) ∧
    ((simple_stats db).toOption.map SimpleStats.total_co2) =
      some (((simple_get_all_records db).map EmissionRecord.co2_kg).sum) ∧
    (∀ s, simple_stats db = StatsOutcome.ok s → ∀ e ∈ s.percentages,
      e.2 = pyRound (catSum (simple_get_all_records db) e.1 /
        ((simple_get_all_records db).map EmissionRecord.co2_kg).sum * 100) 1) := by
  have h1 : db.isEmpty = false := by
    cases db with
    | nil => exact absurd rfl hne
    | cons r rest => rfl
  have h1' : (simple_get_all_records db).isEmpty = false := by
    cases hsg : simple_get_all_records db with
    | nil =>
      exact absurd hsg (simple_get_all_records_ne_nil db hne)
    | cons r rest => rfl
  refine ⟨?_, ?_, ?_, ?_⟩
  · unfold get_statistics
    simp only [h1, Bool.false_eq_true, if_false, if_neg hnz, StatsOutcome.toOption,
      Option.map_some']
  · intro s hs
    unfold get_statistics at hs
    rw [h1] at hs
    simp only [Bool.false_eq_true, if_false, if_neg hnz] at hs
    cases hs
    intro e he
    simp only [List.mem_map] at he
    obtain ⟨e0, he0, rfl⟩ := he
    simp only
    rw [mem_buildBreakdown_total db e0 he0]
  · unfold simple_stats
    simp only [h1', Bool.false_eq_true, if_false, if_neg hnz20, StatsOutcome.toOption,
      Option.map_some']
  · intro s hs
    unfold simple_stats at hs
    simp only [h1', Bool.false_eq_true, if_false, if_neg hnz20] at hs
    cases hs
    intro e he
    simp only [List.mem_map] at he
    obtain ⟨e0, he0, rfl⟩ := he
    simp only
    rw [mem_simpleBreakdown_total (simple_get_all_records db) e0 he0]

/-- Witness for C3's amended theorem at the concrete one-record store. -/
theorem statistics_aggregation_scope_witness :
    ((get_statistics demoDb).toOption.map Stats.total_co2) =
      some ((demoDb.map EmissionRecord.co2_kg).sum) ∧
    (∀ s, get_statistics demoDb = StatsOutcome.ok s → ∀ e ∈ s.breakdown,
      e.percentage =
        pyRound (catSum demoDb e.category /
          (demoDb.map EmissionRecord.co2_kg).sum * 100) 1) ∧
    ((simple_stats demoDb).toOption.map SimpleStats.total_co2) =
      some (((simple_get_all_records demoDb).map EmissionRecord.co2_kg).sum) ∧
    (∀ s, simple_stats demoDb = StatsOutcome.ok s → ∀ e ∈ s.percentages,
      e.2 = pyRound (catSum (simple_get_all_records demoDb) e.1 /
        ((simple_get_all_records demoDb).map EmissionRecord.co2_kg).sum * 100) 1) :=
  statistics_aggregation_scope demoDb (by with_unfolding_all decide)
    (by with_unfolding_all decide) (by with_unfolding_all decide)

end CarbonTrack
